import Mathlib

/-!
Shallow embedding of the requirements-agent derivation and validation core:
the condition evaluator and text instantiator (src/src/engine.py), the quality
validator (src/src/validation.py) and the report aggregator
(src/src/reporting.py), together with theorems settling the frozen claims
about them.
-/

namespace ReqAgent

/-- A scalar profile value as the Python code sees it: a string, an integer,
a float (modelled as an exact rational) or a boolean.  A JSON `null` or a
missing key is modelled as the absence of an entry, matching the uniform
`is None` tests of the source. -/
inductive Value where
  | str (s : String)
  | int (n : Int)
  | float (q : Rat)
  | bool (b : Bool)
deriving DecidableEq

/-- A component profile: a flat mapping from attribute keys to scalar values
(a `Dict[str, Any]` in the source, with unique keys). -/
abbrev Profile := List (String × Value)

/-- Python `profile.get(key)`: `none` for a missing (or null) key. -/
def lookup : Profile → String → Option Value
  | [], _ => none
  | (k, v) :: rest, key => if k = key then some v else lookup rest key

/-- The whitespace characters Python `str.strip` and the regex class `\s`
remove (ASCII portion). -/
def isPySpace (c : Char) : Bool :=
  c = ' ' || c = '\t' || c = '\n' || c = '\r' || c = '\x0b' || c = '\x0c'

/-- Python `str.strip()`: drop leading and trailing whitespace. -/
def pyStrip (s : String) : String :=
  String.mk (((s.toList.dropWhile isPySpace).reverse.dropWhile isPySpace).reverse)

/-- Code-point comparison of characters, as Python compares strings. -/
def charLtB (c d : Char) : Bool := decide (c.toNat < d.toNat)

/-- Lexicographic order on character lists: Python string `<=`. -/
def charListLe : List Char → List Char → Bool
  | [], _ => true
  | _ :: _, [] => false
  | c :: cs, d :: ds => charLtB c d || (c = d && charListLe cs ds)

/-- Python string `<=`. -/
def strLeB (a b : String) : Bool := charListLe a.toList b.toList

/-- Helper for `dedupFirst`: drop elements already in `seen` (structural
recursion, so that the kernel can evaluate it). -/
def dedupFirstAux (seen : List String) : List String → List String
  | [] => []
  | x :: xs =>
    if seen.contains x then dedupFirstAux seen xs else x :: dedupFirstAux (x :: seen) xs

/-- Remove later duplicates, keeping the first occurrence of each element
(the iteration order of a Python `set` built by insertion). -/
def dedupFirst (l : List String) : List String := dedupFirstAux [] l

/-- Insert `x` into a list sorted by `le`, before the first element `y` with
`le x y`. -/
def insertLe {α : Type} (le : α → α → Bool) (x : α) : List α → List α
  | [] => [x]
  | y :: ys => if le x y then x :: y :: ys else y :: insertLe le x ys

/-- Insertion sort by a boolean comparator (models Python `sorted`). -/
def sortLe {α : Type} (le : α → α → Bool) : List α → List α
  | [] => []
  | x :: xs => insertLe le x (sortLe le xs)

/-- Python `sorted` on a collection of strings. -/
def sortStr (l : List String) : List String := sortLe strLeB l

/-- Python `repr`/`str` of a list of strings (as an f-string renders it), for
strings containing no quote characters. -/
def pyListRepr (l : List String) : String :=
  "[" ++ String.intercalate ", " (l.map (fun s => "\x27" ++ s ++ "\x27")) ++ "]"

/-- Decimal digits of the fractional part of a rational, with fuel. -/
def fracDigits : Nat → Rat → String
  | 0, _ => ""
  | fuel + 1, q =>
    if q = 0 then ""
    else
      let d := (q * 10).floor
      toString d ++ fracDigits fuel (q * 10 - d)

/-- Python `str`/`repr` of a float, modelled for values that are short decimal
fractions (the only floats the condition language produces); scientific
notation, infinities and NaN are outside the model. -/
def floatRepr (q : Rat) : String :=
  let sgn := if q < 0 then "-" else ""
  let a := if q < 0 then -q else q
  let ds := fracDigits 32 (a - a.floor)
  sgn ++ toString a.floor ++ "." ++ (if ds = "" then "0" else ds)

/-- Python `str(value)` for a profile scalar. -/
def pyStr : Value → String
  | .str s => s
  | .int n => toString n
  | .float q => floatRepr q
  | .bool b => if b then "True" else "False"

/-- Python `repr(value)` (the `!r` conversion) for a profile scalar, for
strings containing no quote characters. -/
def pyReprVal : Value → String
  | .str s => "\x27" ++ s ++ "\x27"
  | .int n => toString n
  | .float q => floatRepr q
  | .bool b => if b then "True" else "False"

/-- Numeric value of a run of decimal digits. -/
def digitsToNat (l : List Char) : Nat :=
  l.foldl (fun a c => a * 10 + (c.toNat - '0'.toNat)) 0

/-- Helper for `pyFloatOfString`: parse `digits`, `digits.`, `.digits` or
`digits.digits` after the sign. -/
def pyFloatDigits (sgn : Int) (l : List Char) : Option Rat :=
  let ip := l.takeWhile Char.isDigit
  match l.dropWhile Char.isDigit with
  | [] => if ip.isEmpty then none else some ((sgn * (digitsToNat ip : Int) : Int) : Rat)
  | '.' :: frac =>
    if frac.all Char.isDigit && !(ip.isEmpty && frac.isEmpty) then
      some ((sgn : Rat) * ((digitsToNat ip : Rat) + (digitsToNat frac : Rat) / ((10 : Rat) ^ frac.length)))
    else none
  | _ => none

/-- Python `float(s)` on a string, modelled for plain decimal literals with an
optional sign (scientific notation, `inf` and `nan` are outside the model;
failure is `none`, standing for the `ValueError` the source catches). -/
def pyFloatOfString (s : String) : Option Rat :=
  match (pyStrip s).toList with
  | '-' :: rest => pyFloatDigits (-1) rest
  | '+' :: rest => pyFloatDigits 1 rest
  | l => pyFloatDigits 1 l

/-- Python `float(value)` on a profile scalar. -/
def pyFloatOfValue : Value → Option Rat
  | .str s => pyFloatOfString s
  | .int n => some (n : Rat)
  | .float q => some q
  | .bool b => some (if b then 1 else 0)

/-- Split a character list at the first occurrence of `pat` (Python
`s.split(op, 1)` when `op in s`); `none` when `pat` does not occur. -/
def splitOnce (pat : List Char) : List Char → Option (List Char × List Char)
  | [] => none
  | c :: cs =>
    if pat.isPrefixOf (c :: cs) then some ([], (c :: cs).drop pat.length)
    else
      match splitOnce pat cs with
      | some (pre, post) => some (c :: pre, post)
      | none => none

/-- Helper for `splitAll`, accumulating the current (reversed) piece. -/
def splitAllAux (sep : Char) : List Char → List Char → List (List Char)
  | [], cur => [cur.reverse]
  | c :: cs, cur =>
    if c = sep then cur.reverse :: splitAllAux sep cs [] else splitAllAux sep cs (c :: cur)

/-- Python `s.split(sep)` for a one-character separator (empty pieces kept). -/
def splitAll (sep : Char) (l : List Char) : List (List Char) := splitAllAux sep l []

/-- Python `str.lower()` as a character-list map (ASCII case folding; the
list form lets the kernel evaluate it). -/
def pyLower (s : String) : String := String.mk (s.toList.map Char.toLower)

/-- Substring test: Python `pat in hay` for a non-empty `pat`. -/
def containsSub (pat : List Char) : List Char → Bool
  | [] => pat.isEmpty
  | c :: cs => pat.isPrefixOf (c :: cs) || containsSub pat cs

/-- Python `tl.count(" shall ")`: non-overlapping occurrences of the
seven-character pattern, resuming after each full match. -/
def countShallAux : List Char → Nat
  | ' ' :: 's' :: 'h' :: 'a' :: 'l' :: 'l' :: ' ' :: rest => countShallAux rest + 1
  | _ :: rest => countShallAux rest
  | [] => 0

/-- Word characters of the regex class `\w` (ASCII portion). -/
def isWordChar (c : Char) : Bool := c.isAlpha || c.isDigit || c = '_'

/-- Does `pat` occur at index `i` of `hay` with regex word boundaries
(`\b pat \b`) on both sides? -/
def wordAt (hay pat : List Char) (i : Nat) : Bool :=
  pat.isPrefixOf (hay.drop i) &&
  (i == 0 || !isWordChar (hay.getD (i - 1) ' ')) &&
  (decide (hay.length ≤ i + pat.length) || !isWordChar (hay.getD (i + pat.length) ' '))

/-- No newline among positions `a ≤ idx < b` of `hay` (regex `.` does not
match a newline). -/
def noNewlineBetween (hay : List Char) (a b : Nat) : Bool :=
  ((hay.drop a).take (b - a)).all (fun c => c ≠ '\n')

/-- Python `re.search(r"\bshall\b.*\band\b.*\bshall\b", tl)` as an existence
test over match positions. -/
def hasShallAndShall (hay : List Char) : Bool :=
  (List.range (hay.length + 1)).any fun i =>
    wordAt hay ['s', 'h', 'a', 'l', 'l'] i &&
    ((List.range (hay.length + 1)).any fun j =>
      decide (i + 5 ≤ j) && wordAt hay ['a', 'n', 'd'] j && noNewlineBetween hay (i + 5) j &&
      ((List.range (hay.length + 1)).any fun k =>
        decide (j + 3 ≤ k) && wordAt hay ['s', 'h', 'a', 'l', 'l'] k &&
          noNewlineBetween hay (j + 3) k))

/-- First character of a placeholder identifier: regex `[a-zA-Z_]`. -/
def isIdentStart (c : Char) : Bool := c.isAlpha || c = '_'

/-- Later characters of a placeholder identifier: regex `[a-zA-Z0-9_]`. -/
def isIdentCont (c : Char) : Bool := isIdentStart c || c.isDigit

/-- Helper for `matchPH`: the part of the pattern after the opening braces,
`\s*([a-zA-Z_][a-zA-Z0-9_]*)\s*\x7d\x7d`. -/
def matchPHBody (r : List Char) : Option (String × List Char) :=
  match r.dropWhile isPySpace with
  | c :: cs =>
    if isIdentStart c then
      match (cs.dropWhile isIdentCont).dropWhile isPySpace with
      | '\x7d' :: '\x7d' :: r3 => some (String.mk (c :: cs.takeWhile isIdentCont), r3)
      | _ => none
    else none
  | [] => none

/-- Try to match the placeholder regex
`\x7b\x7b\s*([a-zA-Z_][a-zA-Z0-9_]*)\s*\x7d\x7d` (`_PLACEHOLDER_RE`) at the
head of `l`; on success return the captured identifier and the characters
after the match.  The pattern's pieces consume disjoint character classes, so
maximal munch coincides with the regex engine's backtracking search. -/
def matchPH (l : List Char) : Option (String × List Char) :=
  match l with
  | '\x7b' :: '\x7b' :: r => matchPHBody r
  | _ => none

theorem length_dropWhile_le (p : Char → Bool) (l : List Char) :
    (l.dropWhile p).length ≤ l.length :=
  ((List.dropWhile_suffix p).sublist).length_le

theorem matchPHBody_length {r : List Char} {name : String} {rest : List Char}
    (h : matchPHBody r = some (name, rest)) : rest.length ≤ r.length := by
  unfold matchPHBody at h
  split at h
  next c cs heq =>
    split at h
    next =>
      split at h
      next r3 heq2 =>
        cases h
        have e1 := congrArg List.length heq
        have e2 := congrArg List.length heq2
        simp only [List.length_cons] at e1 e2
        have i1 := length_dropWhile_le isPySpace r
        have i2 := length_dropWhile_le isPySpace (cs.dropWhile isIdentCont)
        have i3 := length_dropWhile_le isIdentCont cs
        omega
      next => simp at h
    next => simp at h
  next heq => simp at h

theorem matchPH_length {l : List Char} {name : String} {rest : List Char}
    (h : matchPH l = some (name, rest)) : rest.length < l.length := by
  unfold matchPH at h
  split at h
  next r =>
    have := matchPHBody_length h
    simp only [List.length_cons]
    omega
  next => simp at h

/-- One element of the regex engine's decomposition of a text: a literal
character (not part of any placeholder match) or one placeholder match
carrying its identifier. -/
inductive Tok where
  | lit (c : Char)
  | ph (name : String)
deriving DecidableEq

/-- Helper for `tokenize`: structural recursion on a fuel bound, so that the
kernel can evaluate the scan.  Each step consumes at least one character
(`matchPH_length`), so any fuel of at least `l.length` yields the full
decomposition and the fuel-out arm is never taken from `tokenize`. -/
def tokenizeAux : Nat → List Char → List Tok
  | 0, _ => []
  | fuel + 1, l =>
    match matchPH l with
    | some (name, rest) => .ph name :: tokenizeAux fuel rest
    | none =>
      match l with
      | [] => []
      | c :: cs => .lit c :: tokenizeAux fuel cs

/-- Decompose a text the way `_PLACEHOLDER_RE.sub` / `finditer` scan it:
leftmost non-overlapping matches, advancing one character when no match
starts at the current position. -/
def tokenize (l : List Char) : List Tok := tokenizeAux l.length l

/-- The identifiers of the placeholder markers of a text, in match order
(what `_PLACEHOLDER_RE.finditer` captures). -/
def placeholderNames (s : String) : List String :=
  (tokenize s.toList).filterMap fun t =>
    match t with
    | .ph n => some n
    | .lit _ => none

/-- The result triple of `instantiate_text`: the resolved text, the
`parameter_values` mapping of the values actually substituted, and the
`tbd_params` list of identifiers that had no profile value. -/
structure InstResult where
  text : String
  used : List (String × Value)
  tbd : List String
deriving DecidableEq

/-- Python dict assignment `used[key] = val`: overwrite in place, else append. -/
def dictInsert : List (String × Value) → String → Value → List (String × Value)
  | [], k, v => [(k, v)]
  | (k1, v1) :: rest, k, v =>
    if k1 = k then (k, v) :: rest else (k1, v1) :: dictInsert rest k v

/-- The body of `instantiate_text`'s `repl` callback, folded over the match
decomposition left to right (the order `re.sub` invokes it): a resolved
placeholder substitutes `str(val)` and records the value, an unresolved one
re-emits the canonical marker and appends its identifier to `tbd` at most
once. -/
def instToks (profile : Profile) :
    List Tok → List (String × Value) → List String → InstResult
  | [], used, tbd => ⟨"", used, tbd⟩
  | .lit c :: ts, used, tbd =>
    let r := instToks profile ts used tbd
    ⟨String.singleton c ++ r.text, r.used, r.tbd⟩
  | .ph name :: ts, used, tbd =>
    match lookup profile name with
    | some v =>
      let r := instToks profile ts (dictInsert used name v) tbd
      ⟨pyStr v ++ r.text, r.used, r.tbd⟩
    | none =>
      let r := instToks profile ts used (if name ∈ tbd then tbd else tbd ++ [name])
      ⟨"\x7b\x7b" ++ name ++ "\x7d\x7d" ++ r.text, r.used, r.tbd⟩

/-- `instantiate_text(text, profile)` of src/src/engine.py. -/
def instantiate_text (text : String) (profile : Profile) : InstResult :=
  instToks profile (tokenize text.toList) [] []

/-- The result type of the condition evaluator (`ConditionResult` of
src/src/engine.py). -/
structure ConditionResult where
  matched : Bool
  reasons : List String
deriving DecidableEq

/-- The operator list of `parse_simple_condition`, in scan order: `>=` and
`<=` before `>` and `<`, and `=` last. -/
def condOps : List String := [">=", "<=", ">", "<", "="]

/-- The `for op in (...)` loop of `parse_simple_condition`: the first
operator occurring as a substring wins, and the condition splits at that
operator's first occurrence (`op in cond` then `cond.split(op, 1)`). -/
def findOpSplit : List Char → List String → Option (String × List Char × List Char)
  | _, [] => none
  | cond, op :: rest =>
    match splitOnce op.toList cond with
    | some (l, r) => some (op, l, r)
    | none => findOpSplit cond rest

/-- `parse_simple_condition(cond)` of src/src/engine.py.  A raised
`ValueError` is modelled as `Except.error` carrying the exception's message;
the source's `len(parts) != 2` guard is unreachable (a split on an operator
found in the string always yields two parts with maxsplit 1) and has no arm
here. -/
def parse_simple_condition (cond0 : String) : Except String (String × String × String) :=
  let cond := pyStrip cond0
  match findOpSplit cond.toList condOps with
  | none => .error ("Invalid condition (no operator found): \x27" ++ cond ++ "\x27")
  | some (op, l, r) =>
    let key := pyStrip (String.mk l)
    let rhs := pyStrip (String.mk r)
    if key = "" then .error ("Invalid condition (missing key): \x27" ++ cond ++ "\x27")
    else if rhs = "" then .error ("Invalid condition (missing rhs): \x27" ++ cond ++ "\x27")
    else .ok (key, op, rhs)

/-- The accepted set of an equality condition:
`[v.strip() for v in rhs.split("|")]`. -/
def acceptedValues (rhs : String) : List String :=
  (splitAll '|' rhs.toList).map (fun p => pyStrip (String.mk p))

/-- The `>`/`>=`/`<`/`<=` dispatch of `eval_condition` (the source's final
`else: ok = False` arm is unreachable for parsed operators but kept). -/
def numCmp (op : String) (lhs rhsNum : Rat) : Bool :=
  if op = ">" then decide (lhs > rhsNum)
  else if op = ">=" then decide (lhs ≥ rhsNum)
  else if op = "<" then decide (lhs < rhsNum)
  else if op = "<=" then decide (lhs ≤ rhsNum)
  else false

/-- `eval_condition(profile, cond)` of src/src/engine.py. -/
def eval_condition (profile : Profile) (cond0 : String) : ConditionResult :=
  if pyStrip cond0 = "always" then ⟨true, []⟩
  else
    match parse_simple_condition (pyStrip cond0) with
    | .error e => ⟨false, [e]⟩
    | .ok (key, op, rhs) =>
      match lookup profile key with
      | none => ⟨false, ["Missing profile value for \x27" ++ key ++ "\x27"]⟩
      | some value =>
        if op = "=" then
          if pyStr value ∈ acceptedValues rhs then ⟨true, []⟩
          else
            ⟨false, [key ++ "=\x27" ++ pyStr value ++ "\x27 not in " ++
              pyListRepr (acceptedValues rhs)]⟩
        else
          match pyFloatOfValue value, pyFloatOfString rhs with
          | some lhs, some rhsNum =>
            if numCmp op lhs rhsNum then ⟨true, []⟩
            else
              ⟨false, [key ++ "=" ++ floatRepr lhs ++ " not " ++ op ++ " " ++
                floatRepr rhsNum]⟩
          | _, _ =>
            ⟨false, ["Non-numeric compare for " ++ key ++ " " ++ op ++ " " ++ rhs ++
              " (value=" ++ pyReprVal value ++ ")"]⟩

/-- `eval_when(profile, when_list)` of src/src/engine.py: AND semantics,
collecting every failing condition's reasons without short-circuiting. -/
def eval_when (profile : Profile) (whenList : List String) : ConditionResult :=
  let reasons := whenList.foldl (fun acc cond =>
    let r := eval_condition profile cond
    if r.matched then acc
    else acc ++ (if r.reasons.isEmpty then ["Failed condition: " ++ cond] else r.reasons)) []
  ⟨reasons.isEmpty, reasons⟩

/-- `ValidationIssue` of src/src/validation.py. -/
structure ValidationIssue where
  severity : String
  code : String
  message : String
  requirement_id : Option String := none
deriving DecidableEq

/-- `_has_shall(text)` of src/src/validation.py: the seven-character
substring " shall " occurs in the lowercased text padded with one space on
each side. -/
def _has_shall (text : String) : Bool :=
  containsSub " shall ".toList (" " ++ (pyLower text) ++ " ").toList

/-- `_atomicity_warnings(text)` of src/src/validation.py (the source's local
`tl` and `shall_count` bindings are inlined). -/
def _atomicity_warnings (text : String) : List ValidationIssue :=
  (if containsSub "and/or".toList (pyLower text).toList then
    [⟨"warning", "REQ_ATOMICITY_ANDOR",
      "Requirement contains \x27and/or\x27 which is often ambiguous; consider splitting.",
      none⟩]
   else []) ++
  (if countShallAux (pyLower text).toList > 1 then
    [⟨"warning", "REQ_ATOMICITY_MULTI_SHALL",
      "Requirement contains " ++ toString (countShallAux (pyLower text).toList) ++
        " occurrences of \x27shall\x27; may be compound.", none⟩]
   else []) ++
  (if hasShallAndShall (pyLower text).toList then
    [⟨"warning", "REQ_ATOMICITY_CONJUNCTION",
      "Requirement may be compound (contains \x27shall ... and ... shall ...\x27); consider splitting.",
      none⟩]
   else [])

/-- The `verification` descriptor of a requirement. -/
structure Verification where
  method : List String
  acceptance : String
deriving DecidableEq

/-- The fields of an applicable-requirement object that
`validate_requirement_instance` reads.  The model is typed, so the
`isinstance` guards of the source (non-list `method`, non-string
`acceptance`, non-dict requirement) are unreachable over it. -/
structure Req where
  id : Option String
  text : String
  type : String
  verification : Verification
  tbd_parameters : List String
deriving DecidableEq

/-- The `unresolved` local of `validate_requirement_instance`:
`sorted(set(m.group(1) for m in _PLACEHOLDER_RE.finditer(text)))`. -/
def unresolvedOfText (text : String) : List String :=
  sortStr (dedupFirst (placeholderNames text))

/-- The `missing_from_tbd` local of `validate_requirement_instance`:
`[p for p in unresolved if p not in tbd]`. -/
def missingFromTbd (text : String) (tbd : List String) : List String :=
  (unresolvedOfText text).filter (fun p => !tbd.contains p)

/-- `validate_requirement_instance(req)` of src/src/validation.py: the four
check blocks in source order, concatenated. -/
def validate_requirement_instance (req : Req) : List ValidationIssue :=
  (if req.verification.method.length = 0 then
    [⟨"error", "REQ_VERIFICATION_METHOD_MISSING",
      "Verification.method must be a non-empty list.", req.id⟩]
   else []) ++
  (if pyStrip req.verification.acceptance = "" then
    [⟨"error", "REQ_VERIFICATION_ACCEPTANCE_MISSING",
      "Verification.acceptance must be a non-empty string.", req.id⟩]
   else []) ++
  (if req.type = "programmatic" then []
   else if _has_shall req.text then []
   else
    [⟨"warning", "REQ_SHALL_NOT_FOUND",
      "Requirement text does not contain \x27shall\x27; confirm requirement wording.", req.id⟩]) ++
  (if (unresolvedOfText req.text).isEmpty then []
   else if !(missingFromTbd req.text req.tbd_parameters).isEmpty then
    [⟨"error", "REQ_PLACEHOLDER_UNTRACKED",
      "Unresolved placeholders not tracked in tbd_parameters: " ++
        pyListRepr (missingFromTbd req.text req.tbd_parameters), req.id⟩]
   else
    [⟨"warning", "REQ_PLACEHOLDER_TBD",
      "Requirement has unresolved placeholders that require inputs: " ++
        pyListRepr (unresolvedOfText req.text), req.id⟩]) ++
  ((_atomicity_warnings req.text).map fun i => ⟨i.severity, i.code, i.message, req.id⟩)

/-- The `validation` object `validate_instance` returns. -/
structure ValidationResult where
  overall_status : String
  error_count : Nat
  warning_count : Nat
  info_count : Nat
  issue_count : Nat
  issues : List ValidationIssue
deriving DecidableEq

/-- `validate_instance` of src/src/validation.py over the
`applicable_requirements` list.  The structural branches of the source
(`applicable_requirements` not a list, an entry not an object) are
unreachable over the typed model. -/
def validate_instance (applicable : List Req) : ValidationResult :=
  let issues := (applicable.map validate_requirement_instance).flatten
  let errorCount := issues.countP (fun i => i.severity == "error")
  let warningCount := issues.countP (fun i => i.severity == "warning")
  let infoCount := issues.countP (fun i => i.severity == "info")
  ⟨if errorCount > 0 then "fail" else "pass",
   errorCount, warningCount, infoCount, issues.length, issues⟩

/-- A requirement template as read from the library JSON; `none` models a
missing key, for which the source substitutes a default at its use site. -/
structure TemplateReq where
  id : Option String
  text : String
  type : Option String
  verification : Option Verification
  provenance_refs : List String
  applicability_when : Option (List String)
deriving DecidableEq

/-- A requirement template library: the `requirements` lists of its
`requirement_sets`, in document order. -/
abbrev Template := List (List TemplateReq)

/-- `iter_requirements(template)`: every requirement across every set, in
order. -/
def iter_requirements (template : Template) : List TemplateReq := template.flatten

/-- The applicability rule used for a requirement:
`r.get("applicability", ...).get("when", ["always"])`. -/
def whenListOf (r : TemplateReq) : List String := r.applicability_when.getD ["always"]

/-- An entry of `applicable_requirements`. -/
structure AppliedReq where
  id : Option String
  text : String
  type : String
  verification : Verification
  provenance_refs : List String
  status : String
  parameter_values : List (String × Value)
  tbd_parameters : List String
  applicability_conditions : List String
deriving DecidableEq

/-- The validation view of an applicable entry. -/
def AppliedReq.toReq (r : AppliedReq) : Req :=
  ⟨r.id, r.text, r.type, r.verification, r.tbd_parameters⟩

/-- An entry of `non_applicable_requirements`. -/
structure NonApplicableRec where
  id : Option String
  conditions : List String
  reasons : List String
deriving DecidableEq

/-- The applicable entry `filter_and_instantiate` appends for a matching
requirement (its `applicability.matched` field is the constant `True` and is
left implicit). -/
def mkApplied (profile : Profile) (r : TemplateReq) : AppliedReq :=
  let res := instantiate_text r.text profile
  { id := r.id
    text := res.text
    type := r.type.getD "unknown"
    verification := r.verification.getD ⟨[], ""⟩
    provenance_refs := r.provenance_refs
    status := if res.tbd.isEmpty then "draft" else "review_required"
    parameter_values := res.used
    tbd_parameters := res.tbd
    applicability_conditions := whenListOf r }

/-- The instance document assembled by `filter_and_instantiate`.  The
instance id, template id, generation timestamp and embedded profile of the
source are run metadata (the timestamp is wall-clock I/O) and are not
modelled; the claims concern the requirement lists, the summary counts and
the embedded validation. -/
structure Instance where
  summary_applicable_count : Nat
  summary_non_applicable_count : Nat
  summary_tbd_parameter_count : Nat
  applicable_requirements : List AppliedReq
  non_applicable_requirements : List NonApplicableRec
  validation : ValidationResult
deriving DecidableEq

/-- `filter_and_instantiate(template, profile)` of src/src/engine.py; the
source's single loop appending to two lists is rendered as a filter on the
matched test followed by a map for each list.  `tbd_params_total` is the
set of distinct unresolved names in insertion order. -/
def filter_and_instantiate (template : Template) (profile : Profile) : Instance :=
  let reqs := iter_requirements template
  let applicable :=
    (reqs.filter (fun r => (eval_when profile (whenListOf r)).matched)).map (mkApplied profile)
  let nonApplicable :=
    (reqs.filter (fun r => !(eval_when profile (whenListOf r)).matched)).map fun r =>
      let res := eval_when profile (whenListOf r)
      (⟨r.id, whenListOf r,
        if res.reasons.isEmpty then ["Not applicable"] else res.reasons⟩ : NonApplicableRec)
  let tbdTotal := dedupFirst ((applicable.map (fun a => a.tbd_parameters)).flatten)
  { summary_applicable_count := applicable.length
    summary_non_applicable_count := nonApplicable.length
    summary_tbd_parameter_count := tbdTotal.length
    applicable_requirements := applicable
    non_applicable_requirements := nonApplicable
    validation := validate_instance (applicable.map AppliedReq.toReq) }

/-- The accumulator value of `build_report`'s `grouped` dict for one
`(severity, code)` key. -/
structure GroupAcc where
  key_severity : String
  key_code : String
  count : Nat
  requirement_ids : List String
  messages : List String
deriving DecidableEq

/-- The `if rid: grouped[key]["requirement_ids"].add(rid)` step: add a
truthy `requirement_id` to the id set (modelled as an insertion-ordered
list without duplicates). -/
def updGroupIds (g : GroupAcc) (i : ValidationIssue) : GroupAcc :=
  match i.requirement_id with
  | some r =>
    if r ≠ "" ∧ r ∉ g.requirement_ids then
      { g with requirement_ids := g.requirement_ids ++ [r] }
    else g
  | none => g

/-- The `if msg and len(...) < 3: append` step: append a truthy message
while the group holds fewer than three. -/
def updGroupMsgs (g : GroupAcc) (i : ValidationIssue) : GroupAcc :=
  if i.message ≠ "" ∧ g.messages.length < 3 then
    { g with messages := g.messages ++ [i.message] }
  else g

/-- One issue's effect on its group, in source order: count up, record the
requirement id, record the message. -/
def updGroup (g : GroupAcc) (i : ValidationIssue) : GroupAcc :=
  updGroupMsgs (updGroupIds { g with count := g.count + 1 } i) i

/-- Route an issue to its `(severity, code)` group, creating the group at
the end on first sight (Python `defaultdict` insertion order). -/
def addIssue : List GroupAcc → ValidationIssue → List GroupAcc
  | [], i => [updGroup ⟨i.severity, i.code, 0, [], []⟩ i]
  | g :: gs, i =>
    if g.key_severity = i.severity ∧ g.key_code = i.code then updGroup g i :: gs
    else g :: addIssue gs i

/-- The `grouped` dict of `build_report` after the issue loop. -/
def groupIssues (issues : List ValidationIssue) : List GroupAcc :=
  issues.foldl addIssue []

/-- `sev_order` of `build_report` (unknown severities sort last via 99). -/
def sevRank (s : String) : Nat :=
  if s = "error" then 0 else if s = "warning" then 1 else if s = "info" then 2 else 99

/-- A row of the report's `by_code` table. -/
structure CodeGroup where
  severity : String
  code : String
  count : Nat
  requirement_ids : List String
  message_examples : List String
deriving DecidableEq

/-- The sort key of `by_code`: severity precedence, then code string. -/
def groupLeB (a b : CodeGroup) : Bool :=
  decide (sevRank a.severity < sevRank b.severity) ||
    ((sevRank a.severity == sevRank b.severity) && strLeB a.code b.code)

/-- The report record `build_report` returns. -/
structure Report where
  overall_status : String
  error_count : Nat
  warning_count : Nat
  info_count : Nat
  issue_count : Nat
  by_code : List CodeGroup
deriving DecidableEq

/-- `build_report(instance)` of src/src/reporting.py over the embedded
validation object.  The component/tag metadata the source also surfaces
(`_detect_profile`, `_detect_tag_field`, ids, timestamp, the legacy
`valve_tag` field) is operator readability only and is not modelled. -/
def build_report (v : ValidationResult) : Report :=
  let groups := groupIssues v.issues
  let byCode := groups.map fun g =>
    ({ severity := g.key_severity, code := g.key_code, count := g.count,
       requirement_ids := sortStr g.requirement_ids,
       message_examples := g.messages } : CodeGroup)
  { overall_status := v.overall_status
    error_count := v.error_count
    warning_count := v.warning_count
    info_count := v.info_count
    issue_count := v.issue_count
    by_code := sortLe groupLeB byCode }

/-!  Theorems settling the claims. -/

/-- C2: `validate_instance` marks `overall_status` "fail" exactly when some
produced issue has severity "error", and "pass" otherwise; `error_count`,
`warning_count` and `info_count` are the per-severity tallies of the returned
issue list and `issue_count` is its length — for every list of applicable
requirements. -/
theorem validate_instance_status_and_counts (reqs : List Req) :
    ((validate_instance reqs).overall_status = "fail" ↔
      ∃ i ∈ (validate_instance reqs).issues, i.severity = "error") ∧
    ((validate_instance reqs).overall_status = "fail" ∨
      (validate_instance reqs).overall_status = "pass") ∧
    (validate_instance reqs).error_count =
      ((validate_instance reqs).issues.filter (fun i => i.severity == "error")).length ∧
    (validate_instance reqs).warning_count =
      ((validate_instance reqs).issues.filter (fun i => i.severity == "warning")).length ∧
    (validate_instance reqs).info_count =
      ((validate_instance reqs).issues.filter (fun i => i.severity == "info")).length ∧
    (validate_instance reqs).issue_count = (validate_instance reqs).issues.length := by
  simp only [validate_instance]
  refine ⟨?_, ?_, List.countP_eq_length_filter _ _, List.countP_eq_length_filter _ _,
    List.countP_eq_length_filter _ _, trivial⟩
  · split
    next h =>
      simp only [true_iff]
      obtain ⟨i, hi, hp⟩ := List.countP_pos_iff.mp h
      exact ⟨i, hi, by simpa using hp⟩
    next h =>
      have h0 := Nat.le_zero.mp (Nat.not_lt.mp h)
      constructor
      · intro he
        exact absurd he (by decide)
      · rintro ⟨i, hi, hs⟩
        have := List.countP_eq_zero.mp h0 i hi
        simp [hs] at this
  · split
    · exact Or.inl rfl
    · exact Or.inr rfl

/-- C10: the empty condition list evaluates to a match with no failure
reasons (the AND of zero conditions), so a template requirement whose
applicability rule is explicitly the empty list is emitted among the
applicable requirements for every profile. -/
theorem empty_when_always_applicable (profile : Profile) (template : Template)
    (r : TemplateReq) (hr : r ∈ iter_requirements template)
    (hw : r.applicability_when = some []) :
    eval_when profile [] = ⟨true, []⟩ ∧
    mkApplied profile r ∈ (filter_and_instantiate template profile).applicable_requirements := by
  refine ⟨rfl, ?_⟩
  have hm : (eval_when profile (whenListOf r)).matched = true := by
    simp [whenListOf, hw, eval_when]
  simp only [filter_and_instantiate]
  exact List.mem_map_of_mem _ (List.mem_filter.mpr ⟨hr, hm⟩)

/-- Witness for C10 at a concrete one-requirement template with
`applicability.when = []` and the empty profile. -/
theorem empty_when_always_applicable_witness :
    eval_when [] [] = ⟨true, []⟩ ∧
    mkApplied [] ⟨some "R0", "The valve shall close.", some "functional",
        some ⟨["test"], "ok"⟩, [], some []⟩ ∈
      (filter_and_instantiate
        [[⟨some "R0", "The valve shall close.", some "functional",
          some ⟨["test"], "ok"⟩, [], some []⟩]] []).applicable_requirements :=
  empty_when_always_applicable [] _ _ (by simp [iter_requirements]) rfl

/-! Helper lemmas about `pyStrip` and the condition parser. -/

theorem pyStrip_toList (s : String) :
    (pyStrip s).toList = List.rdropWhile isPySpace (s.toList.dropWhile isPySpace) := rfl

theorem pyStrip_idem (s : String) : pyStrip (pyStrip s) = pyStrip s := by
  have hDfix : (s.toList.dropWhile isPySpace).dropWhile isPySpace =
      s.toList.dropWhile isPySpace := List.dropWhile_idempotent isPySpace s.toList
  have hfix : (pyStrip s).toList.dropWhile isPySpace = (pyStrip s).toList := by
    rw [pyStrip_toList]
    obtain ⟨t, ht⟩ := List.rdropWhile_prefix isPySpace (s.toList.dropWhile isPySpace)
    rcases hr : List.rdropWhile isPySpace (s.toList.dropWhile isPySpace) with _ | ⟨x, r⟩
    · simp
    · rw [hr] at ht
      have hx : ¬ isPySpace x = true := by
        have h0 := List.dropWhile_eq_self_iff.mp hDfix
        rw [← ht] at h0
        simpa using h0 (by simp)
      simp [List.dropWhile_cons, hx]
  have hshape : pyStrip (pyStrip s) =
      String.mk (List.rdropWhile isPySpace ((pyStrip s).toList.dropWhile isPySpace)) := rfl
  rw [hshape, hfix, pyStrip_toList, List.rdropWhile_idempotent]
  rfl

theorem parse_simple_condition_strip (c : String) :
    parse_simple_condition (pyStrip c) = parse_simple_condition c := by
  unfold parse_simple_condition
  rw [pyStrip_idem]

theorem parse_always_error : parse_simple_condition "always" =
    .error "Invalid condition (no operator found): \x27always\x27" := rfl

theorem parse_ok_ne_always {c : String} {v : String × String × String}
    (h : parse_simple_condition c = .ok v) : pyStrip c ≠ "always" := by
  intro he
  rw [← parse_simple_condition_strip, he, parse_always_error] at h
  exact Except.noConfusion h

theorem eval_condition_of_parse_error {profile : Profile} {c e : String}
    (hne : pyStrip c ≠ "always") (h : parse_simple_condition c = .error e) :
    eval_condition profile c = ⟨false, [e]⟩ := by
  unfold eval_condition
  rw [if_neg hne, parse_simple_condition_strip, h]

theorem eval_condition_missing_key {profile : Profile} {c key op rhs : String}
    (h : parse_simple_condition c = .ok (key, op, rhs))
    (hk : lookup profile key = none) :
    eval_condition profile c =
      ⟨false, ["Missing profile value for \x27" ++ key ++ "\x27"]⟩ := by
  unfold eval_condition
  rw [if_neg (parse_ok_ne_always h), parse_simple_condition_strip]
  simp only [h, hk]

theorem eval_condition_non_numeric {profile : Profile} {c key op rhs : String} {v : Value}
    (h : parse_simple_condition c = .ok (key, op, rhs))
    (hk : lookup profile key = some v) (hop : op ≠ "=")
    (hnum : pyFloatOfValue v = none ∨ pyFloatOfString rhs = none) :
    eval_condition profile c =
      ⟨false, ["Non-numeric compare for " ++ key ++ " " ++ op ++ " " ++ rhs ++
        " (value=" ++ pyReprVal v ++ ")"]⟩ := by
  unfold eval_condition
  rw [if_neg (parse_ok_ne_always h), parse_simple_condition_strip]
  simp only [h, hk, if_neg hop]
  rcases hnum with hn | hn
  · rcases hr : pyFloatOfString rhs with _ | q
    · simp only [hn, hr]
    · simp only [hn, hr]
  · rcases hv : pyFloatOfValue v with _ | q
    · simp only [hv, hn]
    · simp only [hv, hn]

theorem eval_condition_nonmatch_has_reason (profile : Profile) (c : String) :
    (eval_condition profile c).matched = false → (eval_condition profile c).reasons ≠ [] := by
  unfold eval_condition
  repeat' split
  all_goals intro hm
  all_goals simp_all

/-- C4: `eval_condition` is total and turns every failure into data: a
non-match always carries at least one reason; a condition other than the
literal `always` whose parse raises (no recognizable operator, or an empty
key or right-hand side after trimming) yields exactly the parse failure's
message; a parsed condition whose key has no profile value yields exactly the
missing-key reason; a numeric comparison either side of which fails to parse
as a float is a non-match with a descriptive reason. -/
theorem eval_condition_total_error_handling (profile : Profile) (c : String) :
    ((eval_condition profile c).matched = false → (eval_condition profile c).reasons ≠ []) ∧
    (∀ e : String, pyStrip c ≠ "always" → parse_simple_condition c = .error e →
      eval_condition profile c = ⟨false, [e]⟩) ∧
    (∀ key op rhs : String, parse_simple_condition c = .ok (key, op, rhs) →
      lookup profile key = none →
      eval_condition profile c =
        ⟨false, ["Missing profile value for \x27" ++ key ++ "\x27"]⟩) ∧
    (∀ (key op rhs : String) (v : Value), parse_simple_condition c = .ok (key, op, rhs) →
      lookup profile key = some v → op ≠ "=" →
      (pyFloatOfValue v = none ∨ pyFloatOfString rhs = none) →
      eval_condition profile c =
        ⟨false, ["Non-numeric compare for " ++ key ++ " " ++ op ++ " " ++ rhs ++
          " (value=" ++ pyReprVal v ++ ")"]⟩) :=
  ⟨eval_condition_nonmatch_has_reason profile c,
   fun _ hne he => eval_condition_of_parse_error hne he,
   fun _ _ _ hp hk => eval_condition_missing_key hp hk,
   fun _ _ _ _ hp hk hop hnum => eval_condition_non_numeric hp hk hop hnum⟩

/-- Witness for C4: a condition with no operator, a condition over a missing
key, and a numeric comparison against a non-numeric value, each at concrete
inputs. -/
theorem eval_condition_total_error_handling_witness :
    eval_condition [] "nonsense" =
      ⟨false, ["Invalid condition (no operator found): \x27nonsense\x27"]⟩ ∧
    eval_condition [] "x>5" = ⟨false, ["Missing profile value for \x27x\x27"]⟩ ∧
    eval_condition [("x", .str "abc")] "x>5" =
      ⟨false, ["Non-numeric compare for x > 5 (value=\x27abc\x27)"]⟩ :=
  ⟨(eval_condition_total_error_handling [] "nonsense").2.1 _ (by decide) rfl,
   (eval_condition_total_error_handling [] "x>5").2.2.1 "x" ">" "5" rfl rfl,
   (eval_condition_total_error_handling [("x", .str "abc")] "x>5").2.2.2 "x" ">" "5"
     (.str "abc") rfl rfl (by decide) (Or.inl rfl)⟩

/-- C5: for an equality condition (a condition parsing to operator `=`)
over a profile holding a value for the key, `eval_condition` matches exactly
when the value's string form is one of the accepted alternatives of the
right-hand side, and on failure the single reason lists the value and the
accepted set. -/
theorem eval_condition_equality (profile : Profile) (c key rhs : String) (v : Value)
    (hp : parse_simple_condition c = .ok (key, "=", rhs))
    (hv : lookup profile key = some v) :
    ((eval_condition profile c).matched = true ↔ pyStr v ∈ acceptedValues rhs) ∧
    (pyStr v ∉ acceptedValues rhs →
      (eval_condition profile c).reasons =
        [key ++ "=\x27" ++ pyStr v ++ "\x27 not in " ++ pyListRepr (acceptedValues rhs)]) := by
  unfold eval_condition
  rw [if_neg (parse_ok_ne_always hp), parse_simple_condition_strip]
  by_cases hm : pyStr v ∈ acceptedValues rhs
  · simp only [hp, hv, if_pos rfl, if_pos hm]
    simp [hm]
  · simp only [hp, hv, if_pos rfl, if_neg hm]
    simp [hm]

/-- Witness for C5 at the concrete condition `k=a|b|c` and a profile whose
`k` is the string `b`. -/
theorem eval_condition_equality_witness :
    ((eval_condition [("k", .str "b")] "k=a|b|c").matched = true ↔
      pyStr (.str "b") ∈ acceptedValues "a|b|c") ∧
    (pyStr (.str "b") ∉ acceptedValues "a|b|c" →
      (eval_condition [("k", .str "b")] "k=a|b|c").reasons =
        ["k=\x27b\x27 not in " ++ pyListRepr (acceptedValues "a|b|c")]) :=
  eval_condition_equality [("k", .str "b")] "k=a|b|c" "k" "a|b|c" (.str "b") rfl rfl

/-- The issues of the placeholder check (block 3 of
`validate_requirement_instance`) among a requirement's validation issues. -/
def placeholderIssues (req : Req) : List ValidationIssue :=
  (validate_requirement_instance req).filter
    (fun i => i.code == "REQ_PLACEHOLDER_UNTRACKED" || i.code == "REQ_PLACEHOLDER_TBD")

theorem atomicity_codes {text : String} {i : ValidationIssue}
    (hi : i ∈ _atomicity_warnings text) :
    i.code = "REQ_ATOMICITY_ANDOR" ∨ i.code = "REQ_ATOMICITY_MULTI_SHALL" ∨
      i.code = "REQ_ATOMICITY_CONJUNCTION" := by
  unfold _atomicity_warnings at hi
  rcases List.mem_append.mp hi with h | h3
  · rcases List.mem_append.mp h with h1 | h2
    · split at h1 <;> simp_all
    · split at h2 <;> simp_all
  · split at h3 <;> simp_all

/-- C1: when the requirement's resolved text still contains placeholder
markers, `validate_requirement_instance` emits exactly one placeholder
issue: a single error `REQ_PLACEHOLDER_UNTRACKED` listing the untracked
names when some placeholder name of the text is absent from
`tbd_parameters`, and otherwise a single warning `REQ_PLACEHOLDER_TBD`
listing the unresolved names. -/
theorem placeholder_issue_exactly_one (req : Req)
    (h : unresolvedOfText req.text ≠ []) :
    placeholderIssues req =
      if missingFromTbd req.text req.tbd_parameters ≠ [] then
        [⟨"error", "REQ_PLACEHOLDER_UNTRACKED",
          "Unresolved placeholders not tracked in tbd_parameters: " ++
            pyListRepr (missingFromTbd req.text req.tbd_parameters), req.id⟩]
      else
        [⟨"warning", "REQ_PLACEHOLDER_TBD",
          "Requirement has unresolved placeholders that require inputs: " ++
            pyListRepr (unresolvedOfText req.text), req.id⟩] := by
  have hne : (unresolvedOfText req.text).isEmpty = false := by
    cases hl : (unresolvedOfText req.text).isEmpty
    · rfl
    · exact absurd (List.isEmpty_iff.mp hl) h
  have hatom : ((_atomicity_warnings req.text).map
      (fun i => (⟨i.severity, i.code, i.message, req.id⟩ : ValidationIssue))).filter
      (fun i => i.code == "REQ_PLACEHOLDER_UNTRACKED" || i.code == "REQ_PLACEHOLDER_TBD") = [] := by
    rw [List.filter_eq_nil_iff]
    intro a ha
    obtain ⟨i, hi, rfl⟩ := List.mem_map.mp ha
    rcases atomicity_codes hi with hc | hc | hc <;> simp [hc]
  have hA : (if req.verification.method.length = 0 then
      [(⟨"error", "REQ_VERIFICATION_METHOD_MISSING",
        "Verification.method must be a non-empty list.", req.id⟩ : ValidationIssue)]
     else []).filter
      (fun i => i.code == "REQ_PLACEHOLDER_UNTRACKED" || i.code == "REQ_PLACEHOLDER_TBD") = [] := by
    split <;> rfl
  have hB : (if pyStrip req.verification.acceptance = "" then
      [(⟨"error", "REQ_VERIFICATION_ACCEPTANCE_MISSING",
        "Verification.acceptance must be a non-empty string.", req.id⟩ : ValidationIssue)]
     else []).filter
      (fun i => i.code == "REQ_PLACEHOLDER_UNTRACKED" || i.code == "REQ_PLACEHOLDER_TBD") = [] := by
    split <;> rfl
  have hC : (if req.type = "programmatic" then []
     else if _has_shall req.text then []
     else
      [(⟨"warning", "REQ_SHALL_NOT_FOUND",
        "Requirement text does not contain \x27shall\x27; confirm requirement wording.",
        req.id⟩ : ValidationIssue)]).filter
      (fun i => i.code == "REQ_PLACEHOLDER_UNTRACKED" || i.code == "REQ_PLACEHOLDER_TBD") = [] := by
    split_ifs <;> rfl
  have hD : (if (unresolvedOfText req.text).isEmpty then []
     else if !(missingFromTbd req.text req.tbd_parameters).isEmpty then
      [(⟨"error", "REQ_PLACEHOLDER_UNTRACKED",
        "Unresolved placeholders not tracked in tbd_parameters: " ++
          pyListRepr (missingFromTbd req.text req.tbd_parameters), req.id⟩ : ValidationIssue)]
     else
      [(⟨"warning", "REQ_PLACEHOLDER_TBD",
        "Requirement has unresolved placeholders that require inputs: " ++
          pyListRepr (unresolvedOfText req.text), req.id⟩ : ValidationIssue)]).filter
      (fun i => i.code == "REQ_PLACEHOLDER_UNTRACKED" || i.code == "REQ_PLACEHOLDER_TBD") =
      (if missingFromTbd req.text req.tbd_parameters ≠ [] then
        [(⟨"error", "REQ_PLACEHOLDER_UNTRACKED",
          "Unresolved placeholders not tracked in tbd_parameters: " ++
            pyListRepr (missingFromTbd req.text req.tbd_parameters), req.id⟩ : ValidationIssue)]
      else
        [(⟨"warning", "REQ_PLACEHOLDER_TBD",
          "Requirement has unresolved placeholders that require inputs: " ++
            pyListRepr (unresolvedOfText req.text), req.id⟩ : ValidationIssue)]) := by
    by_cases hm : missingFromTbd req.text req.tbd_parameters = []
    · simp [hne, hm]
    · have hmE : (missingFromTbd req.text req.tbd_parameters).isEmpty = false := by
        cases hl : (missingFromTbd req.text req.tbd_parameters).isEmpty
        · rfl
        · exact absurd (List.isEmpty_iff.mp hl) hm
      simp [hne, hmE, hm]
  unfold placeholderIssues validate_requirement_instance
  simp only [List.filter_append, hA, hB, hC, hD, hatom, List.append_nil, List.nil_append]

/-- Witness for C1: the concrete scenario of the specification, text
"The valve shall withstand (dp_max placeholder) without damage." with the
placeholder tracked and untracked. -/
theorem placeholder_issue_exactly_one_witness :
    placeholderIssues ⟨some "R1",
        "The valve shall withstand \x7b\x7bdp_max\x7d\x7d without damage.",
        "performance", ⟨["analysis"], "Meets."⟩, ["dp_max"]⟩ =
      [⟨"warning", "REQ_PLACEHOLDER_TBD",
        "Requirement has unresolved placeholders that require inputs: [\x27dp_max\x27]",
        some "R1"⟩] ∧
    placeholderIssues ⟨some "R1",
        "The valve shall withstand \x7b\x7bdp_max\x7d\x7d without damage.",
        "performance", ⟨["analysis"], "Meets."⟩, []⟩ =
      [⟨"error", "REQ_PLACEHOLDER_UNTRACKED",
        "Unresolved placeholders not tracked in tbd_parameters: [\x27dp_max\x27]",
        some "R1"⟩] := by
  constructor
  · rw [placeholder_issue_exactly_one _ (by decide)]
    decide
  · rw [placeholder_issue_exactly_one _ (by decide)]
    decide

/-- The specification's reading of the `shall` check for C7: the obligation
word occurs in the lowercased text as a word-bounded occurrence (regex
`\bshall\b`). -/
def containsWordShall (text : String) : Bool :=
  (List.range (pyLower text).toList.length).any
    (fun i => wordAt (pyLower text).toList ['s', 'h', 'a', 'l', 'l'] i)

theorem isPrefixOf_iff_exists {pat l : List Char} :
    pat.isPrefixOf l = true ↔ ∃ t, l = pat ++ t := by
  induction pat generalizing l with
  | nil => simp [List.isPrefixOf]
  | cons p ps ih =>
    cases l with
    | nil => simp [List.isPrefixOf]
    | cons c cs =>
      simp only [List.isPrefixOf, Bool.and_eq_true, beq_iff_eq, ih, List.cons_append,
        List.cons.injEq]
      constructor
      · rintro ⟨rfl, t, rfl⟩
        exact ⟨t, rfl, rfl⟩
      · rintro ⟨t, rfl, rfl⟩
        exact ⟨rfl, t, rfl⟩

theorem containsSub_iff_exists {pat : List Char} (hne : pat ≠ []) (hay : List Char) :
    containsSub pat hay = true ↔ ∃ s t, hay = s ++ pat ++ t := by
  induction hay with
  | nil =>
    have hpe : pat.isEmpty = false := by
      cases pat
      · exact absurd rfl hne
      · rfl
    simp only [containsSub, hpe, Bool.false_eq_true, false_iff]
    rintro ⟨s, t, hst⟩
    have hlen := congrArg List.length hst
    have hpos : 0 < pat.length := List.length_pos.mpr hne
    simp [List.length_append] at hlen
    omega
  | cons c cs ih =>
    simp only [containsSub, Bool.or_eq_true, ih, isPrefixOf_iff_exists]
    constructor
    · rintro (⟨t, ht⟩ | ⟨s, t, rfl⟩)
      · exact ⟨[], t, by simpa using ht⟩
      · exact ⟨c :: s, t, rfl⟩
    · rintro ⟨s, t, hst⟩
      cases s with
      | nil => exact Or.inl ⟨t, by simpa using hst⟩
      | cons a as =>
        rw [List.cons_append, List.cons_append] at hst
        injection hst with h1 h2
        exact Or.inr ⟨as, t, h2⟩

theorem _has_shall_iff (text : String) :
    _has_shall text = true ↔
      ∃ pre post : List Char,
        (" " ++ (pyLower text) ++ " ").toList = pre ++ " shall ".toList ++ post := by
  unfold _has_shall
  exact containsSub_iff_exists (by decide) _

theorem shall_filter (req : Req) (ht : req.type ≠ "programmatic") :
    (validate_requirement_instance req).filter (fun i => i.code == "REQ_SHALL_NOT_FOUND") =
      (if _has_shall req.text then [] else
        [⟨"warning", "REQ_SHALL_NOT_FOUND",
          "Requirement text does not contain \x27shall\x27; confirm requirement wording.",
          req.id⟩]) := by
  have hatom : ((_atomicity_warnings req.text).map
      (fun i => (⟨i.severity, i.code, i.message, req.id⟩ : ValidationIssue))).filter
      (fun i => i.code == "REQ_SHALL_NOT_FOUND") = [] := by
    rw [List.filter_eq_nil_iff]
    intro a ha
    obtain ⟨i, hi, rfl⟩ := List.mem_map.mp ha
    rcases atomicity_codes hi with hc | hc | hc <;> simp [hc]
  have hA : (if req.verification.method.length = 0 then
      [(⟨"error", "REQ_VERIFICATION_METHOD_MISSING",
        "Verification.method must be a non-empty list.", req.id⟩ : ValidationIssue)]
     else []).filter (fun i => i.code == "REQ_SHALL_NOT_FOUND") = [] := by
    split <;> rfl
  have hB : (if pyStrip req.verification.acceptance = "" then
      [(⟨"error", "REQ_VERIFICATION_ACCEPTANCE_MISSING",
        "Verification.acceptance must be a non-empty string.", req.id⟩ : ValidationIssue)]
     else []).filter (fun i => i.code == "REQ_SHALL_NOT_FOUND") = [] := by
    split <;> rfl
  have hD : (if (unresolvedOfText req.text).isEmpty then []
     else if !(missingFromTbd req.text req.tbd_parameters).isEmpty then
      [(⟨"error", "REQ_PLACEHOLDER_UNTRACKED",
        "Unresolved placeholders not tracked in tbd_parameters: " ++
          pyListRepr (missingFromTbd req.text req.tbd_parameters), req.id⟩ : ValidationIssue)]
     else
      [(⟨"warning", "REQ_PLACEHOLDER_TBD",
        "Requirement has unresolved placeholders that require inputs: " ++
          pyListRepr (unresolvedOfText req.text), req.id⟩ : ValidationIssue)]).filter
      (fun i => i.code == "REQ_SHALL_NOT_FOUND") = [] := by
    split_ifs <;> rfl
  have hC : (if req.type = "programmatic" then []
     else if _has_shall req.text then []
     else
      [(⟨"warning", "REQ_SHALL_NOT_FOUND",
        "Requirement text does not contain \x27shall\x27; confirm requirement wording.",
        req.id⟩ : ValidationIssue)]).filter
      (fun i => i.code == "REQ_SHALL_NOT_FOUND") =
      (if _has_shall req.text then [] else
        [⟨"warning", "REQ_SHALL_NOT_FOUND",
          "Requirement text does not contain \x27shall\x27; confirm requirement wording.",
          req.id⟩]) := by
    rw [if_neg ht]
    split <;> rfl
  unfold validate_requirement_instance
  simp only [List.filter_append, hA, hB, hC, hD, hatom, List.append_nil, List.nil_append]

/-- Counterexample to C7 as stated: the text "Shall: the valve close."
contains the obligation word as a case-insensitive word-bounded occurrence
(bounded by the punctuation ":"), so under the claim no warning may be
emitted; yet the validator, which looks for the space-delimited " shall "
only, still emits `REQ_SHALL_NOT_FOUND` for this non-exempt requirement. -/
theorem shall_word_bounded_counterexample :
    containsWordShall "Shall: the valve close." = true ∧
    (validate_requirement_instance ⟨some "R1", "Shall: the valve close.", "functional",
        ⟨["test"], "ok"⟩, []⟩).filter (fun i => i.code == "REQ_SHALL_NOT_FOUND") =
      [⟨"warning", "REQ_SHALL_NOT_FOUND",
        "Requirement text does not contain \x27shall\x27; confirm requirement wording.",
        some "R1"⟩] := by
  constructor
  · decide
  · decide

/-- C7 amended: for a requirement of non-exempt type, the
`REQ_SHALL_NOT_FOUND` warning is emitted exactly when the seven-character
substring " shall " does not occur in the lowercased text padded with one
space on each side — a space-delimited occurrence test, not a general
word-boundary test (so "shall:" does not count as containing the word). -/
theorem shall_warning_iff_no_space_delimited (req : Req)
    (ht : req.type ≠ "programmatic") :
    (∃ i ∈ validate_requirement_instance req, i.code = "REQ_SHALL_NOT_FOUND") ↔
      ¬ ∃ pre post : List Char,
        (" " ++ (pyLower req.text) ++ " ").toList = pre ++ " shall ".toList ++ post := by
  rw [← _has_shall_iff]
  have hf := shall_filter req ht
  constructor
  · rintro ⟨i, hi, hc⟩ hs
    rw [if_pos hs] at hf
    have hmem : i ∈ (validate_requirement_instance req).filter
        (fun i => i.code == "REQ_SHALL_NOT_FOUND") :=
      List.mem_filter.mpr ⟨hi, by simp [hc]⟩
    rw [hf] at hmem
    exact absurd hmem (List.not_mem_nil i)
  · intro hs
    have hsf : ¬ _has_shall req.text = true := hs
    rw [if_neg hsf] at hf
    have hw : (⟨"warning", "REQ_SHALL_NOT_FOUND",
        "Requirement text does not contain \x27shall\x27; confirm requirement wording.",
        req.id⟩ : ValidationIssue) ∈ (validate_requirement_instance req).filter
        (fun i => i.code == "REQ_SHALL_NOT_FOUND") := by
      rw [hf]
      exact List.mem_singleton.mpr rfl
    exact ⟨_, (List.mem_filter.mp hw).1, rfl⟩

/-- Witness for the amended C7 at the concrete text "Shall: the valve
close." of type "functional". -/
theorem shall_warning_iff_no_space_delimited_witness :
    (∃ i ∈ validate_requirement_instance ⟨some "R1", "Shall: the valve close.", "functional",
        ⟨["test"], "ok"⟩, []⟩, i.code = "REQ_SHALL_NOT_FOUND") ↔
      ¬ ∃ pre post : List Char,
        (" " ++ (pyLower "Shall: the valve close.") ++ " ").toList =
          pre ++ " shall ".toList ++ post :=
  shall_warning_iff_no_space_delimited
    ⟨some "R1", "Shall: the valve close.", "functional", ⟨["test"], "ok"⟩, []⟩ (by decide)

/-! Lemmas about the text instantiator's threading of the `tbd` list. -/

theorem instToks_tbd_nodup (profile : Profile) :
    ∀ (ts : List Tok) (used : List (String × Value)) (acc : List String),
      acc.Nodup → (instToks profile ts used acc).tbd.Nodup := by
  intro ts
  induction ts with
  | nil => intro used acc h; exact h
  | cons t ts ih =>
    intro used acc h
    cases t with
    | lit c => exact ih _ _ h
    | ph name =>
      cases hl : lookup profile name with
      | some v =>
        simp only [instToks, hl]
        exact ih _ _ h
      | none =>
        simp only [instToks, hl]
        by_cases hm : name ∈ acc
        · rw [if_pos hm]
          exact ih _ _ h
        · rw [if_neg hm]
          exact ih _ _ (by simp [List.nodup_append, h, hm])

theorem instToks_tbd_mem (profile : Profile) (name : String) :
    ∀ (ts : List Tok) (used : List (String × Value)) (acc : List String),
      name ∈ (instToks profile ts used acc).tbd ↔
        name ∈ acc ∨ (Tok.ph name ∈ ts ∧ lookup profile name = none) := by
  intro ts
  induction ts with
  | nil => intro used acc; simp [instToks]
  | cons t ts ih =>
    intro used acc
    cases t with
    | lit c =>
      simp only [instToks]
      rw [ih]
      simp
    | ph m =>
      cases hl : lookup profile m with
      | some v =>
        simp only [instToks, hl]
        rw [ih]
        constructor
        · rintro (h | h)
          · exact Or.inl h
          · exact Or.inr ⟨List.mem_cons_of_mem _ h.1, h.2⟩
        · rintro (h | ⟨hm, hn⟩)
          · exact Or.inl h
          · rcases List.mem_cons.mp hm with he | hm2
            · have : name = m := by injection he
              subst this
              rw [hl] at hn
              cases hn
            · exact Or.inr ⟨hm2, hn⟩
      | none =>
        simp only [instToks, hl]
        rw [ih]
        by_cases hnm : name = m
        · subst hnm
          by_cases hmem : name ∈ acc
          · rw [if_pos hmem]
            simp [hmem, hl]
          · rw [if_neg hmem]
            simp [List.mem_append, hl]
        · by_cases hmem : m ∈ acc
          · rw [if_pos hmem]
            simp [List.mem_cons, hnm]
          · rw [if_neg hmem]
            simp [List.mem_append, hnm, List.mem_cons]

theorem instToks_text_marker (profile : Profile) (name : String) :
    ∀ (ts : List Tok) (used : List (String × Value)) (acc : List String),
      Tok.ph name ∈ ts → lookup profile name = none →
      ∃ pre post : String, (instToks profile ts used acc).text =
        pre ++ ("\x7b\x7b" ++ name ++ "\x7d\x7d") ++ post := by
  intro ts
  induction ts with
  | nil =>
    intro _ _ h
    simp at h
  | cons t ts ih =>
    intro used acc hmem hl
    cases t with
    | lit c =>
      have hmem2 : Tok.ph name ∈ ts := by
        rcases List.mem_cons.mp hmem with he | h2
        · exact absurd he (by simp)
        · exact h2
      obtain ⟨pre, post, hp⟩ := ih used acc hmem2 hl
      refine ⟨String.singleton c ++ pre, post, ?_⟩
      simp only [instToks, hp, String.append_assoc]
    | ph m =>
      rcases List.mem_cons.mp hmem with he | hmem2
      · have hnm : name = m := by injection he
        subst hnm
        simp only [instToks, hl]
        refine ⟨"", (instToks profile ts used
          (if name ∈ acc then acc else acc ++ [name])).text, ?_⟩
        rw [String.empty_append, String.append_assoc]
      · cases hl2 : lookup profile m with
        | some v =>
          obtain ⟨pre, post, hp⟩ := ih (dictInsert used m v) acc hmem2 hl
          refine ⟨pyStr v ++ pre, post, ?_⟩
          simp only [instToks, hl2, hp, String.append_assoc]
        | none =>
          obtain ⟨pre, post, hp⟩ :=
            ih used (if m ∈ acc then acc else acc ++ [m]) hmem2 hl
          refine ⟨"\x7b\x7b" ++ m ++ "\x7d\x7d" ++ pre, post, ?_⟩
          simp only [instToks, hl2, hp, String.append_assoc]

/-- Counterexample to C6 as stated: for the text "Use (marker with interior
spaces around dp) now." and an empty profile the unresolved marker is
re-emitted in canonical form without its interior whitespace, so the
resolved text is not the input text unchanged. -/
theorem unresolved_marker_normalized_counterexample :
    instantiate_text "Use \x7b\x7b dp \x7d\x7d now." [] =
      ⟨"Use \x7b\x7bdp\x7d\x7d now.", [], ["dp"]⟩ ∧
    "Use \x7b\x7bdp\x7d\x7d now." ≠ "Use \x7b\x7b dp \x7d\x7d now." := by
  constructor
  · decide
  · decide

/-- C6 amended: for every text and profile, each placeholder occurrence whose
identifier has no (non-null) profile value is re-emitted into the resolved
text as the canonical marker (opening braces, identifier, closing braces,
with any interior whitespace of the original marker dropped — so the marker
is unchanged exactly when it was written without interior whitespace), and
the identifier is appended to the `tbd` list exactly once even when it
occurs multiple times. -/
theorem unresolved_marker_kept_and_tbd_once (text : String) (profile : Profile)
    (name : String)
    (hocc : Tok.ph name ∈ tokenize text.toList)
    (hun : lookup profile name = none) :
    (∃ pre post : String, (instantiate_text text profile).text =
      pre ++ ("\x7b\x7b" ++ name ++ "\x7d\x7d") ++ post) ∧
    name ∈ (instantiate_text text profile).tbd ∧
    (instantiate_text text profile).tbd.Nodup ∧
    (instantiate_text text profile).tbd.count name = 1 := by
  have hnodup : (instantiate_text text profile).tbd.Nodup :=
    instToks_tbd_nodup profile _ _ _ List.nodup_nil
  have hmem : name ∈ (instantiate_text text profile).tbd := by
    unfold instantiate_text
    rw [instToks_tbd_mem]
    exact Or.inr ⟨hocc, hun⟩
  exact ⟨instToks_text_marker profile name _ _ _ hocc hun, hmem, hnodup,
    List.count_eq_one_of_mem hnodup hmem⟩

/-- Witness for the amended C6: the text with two occurrences of the
placeholder `x` and one of `y`, against the empty profile. -/
theorem unresolved_marker_kept_and_tbd_once_witness :
    (∃ pre post : String,
      (instantiate_text "\x7b\x7bx\x7d\x7d and \x7b\x7bx\x7d\x7d and \x7b\x7by\x7d\x7d" []).text =
        pre ++ ("\x7b\x7b" ++ "x" ++ "\x7d\x7d") ++ post) ∧
    "x" ∈ (instantiate_text "\x7b\x7bx\x7d\x7d and \x7b\x7bx\x7d\x7d and \x7b\x7by\x7d\x7d" []).tbd ∧
    (instantiate_text "\x7b\x7bx\x7d\x7d and \x7b\x7bx\x7d\x7d and \x7b\x7by\x7d\x7d" []).tbd.Nodup ∧
    (instantiate_text "\x7b\x7bx\x7d\x7d and \x7b\x7bx\x7d\x7d and \x7b\x7by\x7d\x7d" []).tbd.count "x" = 1 :=
  unresolved_marker_kept_and_tbd_once
    "\x7b\x7bx\x7d\x7d and \x7b\x7bx\x7d\x7d and \x7b\x7by\x7d\x7d" [] "x"
    (by decide) rfl

/-- Counterexample to C3 as stated: for the template text
`(open)(open)x(open)(open)a(close)(close)(close)(close)` and the profile
mapping `a` to the brace-free string "y", the only match of the scan is the
inner marker for `a`; after the purely textual substitution the resolved
text is a fresh well-formed marker for the identifier `xy`, so the resolved
text contains the placeholder name "xy" while `tbd_parameters` is empty —
the unresolved-parameter list is not the set of placeholder names of the
resolved text. -/
theorem tbd_not_placeholders_of_resolved_counterexample :
    ((filter_and_instantiate
        [[⟨some "R1", "\x7b\x7bx\x7b\x7ba\x7d\x7d\x7d\x7d", some "performance",
          some ⟨["test"], "ok"⟩, [], some ["always"]⟩]]
        [("a", .str "y")]).applicable_requirements.map
      (fun r => (r.text, r.tbd_parameters))) = [("\x7b\x7bxy\x7d\x7d", [])] ∧
    placeholderNames "\x7b\x7bxy\x7d\x7d" = ["xy"] := by
  constructor
  · decide
  · decide

/-- C3 amended: every applicable requirement the orchestrator emits carries
as `tbd_parameters` exactly the distinct placeholder names of its original
template text that have no (non-null) profile value — without duplicates,
and a name is listed iff it is an unresolved placeholder of the template
text.  Substitution being purely textual with no recursive expansion, this
set can differ from the placeholder names of the resolved text when a
substituted value, or its juxtaposition with the surrounding text, forms a
new placeholder-shaped span. -/
theorem applicable_tbd_is_unresolved_of_template (template : Template)
    (profile : Profile) (entry : AppliedReq)
    (he : entry ∈ (filter_and_instantiate template profile).applicable_requirements) :
    entry.tbd_parameters.Nodup ∧
    ∃ r ∈ iter_requirements template,
      entry = mkApplied profile r ∧
      ∀ name, name ∈ entry.tbd_parameters ↔
        (Tok.ph name ∈ tokenize r.text.toList ∧ lookup profile name = none) := by
  simp only [filter_and_instantiate] at he
  obtain ⟨r, hr, rfl⟩ := List.mem_map.mp he
  have hrm := List.mem_filter.mp hr
  refine ⟨?_, r, hrm.1, rfl, ?_⟩
  · show (instantiate_text r.text profile).tbd.Nodup
    exact instToks_tbd_nodup profile _ _ _ List.nodup_nil
  · intro name
    show name ∈ (instantiate_text r.text profile).tbd ↔ _
    unfold instantiate_text
    rw [instToks_tbd_mem]
    simp

/-- Witness for the amended C3 at a one-requirement template whose text
holds a resolved and an unresolved placeholder. -/
theorem applicable_tbd_is_unresolved_of_template_witness :
    (mkApplied [("x", .int 5)]
        ⟨some "R1", "\x7b\x7bx\x7d\x7d and \x7b\x7by\x7d\x7d", some "performance",
          some ⟨["test"], "ok"⟩, [], some ["always"]⟩).tbd_parameters.Nodup ∧
    ∃ r ∈ iter_requirements
        [[⟨some "R1", "\x7b\x7bx\x7d\x7d and \x7b\x7by\x7d\x7d", some "performance",
          some ⟨["test"], "ok"⟩, [], some ["always"]⟩]],
      mkApplied [("x", .int 5)]
        ⟨some "R1", "\x7b\x7bx\x7d\x7d and \x7b\x7by\x7d\x7d", some "performance",
          some ⟨["test"], "ok"⟩, [], some ["always"]⟩ = mkApplied [("x", .int 5)] r ∧
      ∀ name, name ∈ (mkApplied [("x", .int 5)]
          ⟨some "R1", "\x7b\x7bx\x7d\x7d and \x7b\x7by\x7d\x7d", some "performance",
            some ⟨["test"], "ok"⟩, [], some ["always"]⟩).tbd_parameters ↔
        (Tok.ph name ∈ tokenize r.text.toList ∧
          lookup [("x", .int 5)] name = none) :=
  applicable_tbd_is_unresolved_of_template
    [[⟨some "R1", "\x7b\x7bx\x7d\x7d and \x7b\x7by\x7d\x7d", some "performance",
      some ⟨["test"], "ok"⟩, [], some ["always"]⟩]]
    [("x", .int 5)] _ (by decide)

/-! Lemmas about the report aggregator. -/

theorem insertLe_perm {α : Type} (le : α → α → Bool) (x : α) (l : List α) :
    (insertLe le x l).Perm (x :: l) := by
  induction l with
  | nil => exact List.Perm.refl _
  | cons y ys ih =>
    unfold insertLe
    split
    · exact List.Perm.refl _
    · exact (List.Perm.cons y ih).trans (List.Perm.swap x y ys)

theorem sortLe_perm {α : Type} (le : α → α → Bool) (l : List α) :
    (sortLe le l).Perm l := by
  induction l with
  | nil => exact List.Perm.refl _
  | cons x xs ih => exact (insertLe_perm le x (sortLe le xs)).trans (List.Perm.cons x ih)

theorem updGroupIds_fields (g : GroupAcc) (i : ValidationIssue) :
    (updGroupIds g i).count = g.count ∧ (updGroupIds g i).key_severity = g.key_severity ∧
    (updGroupIds g i).key_code = g.key_code ∧ (updGroupIds g i).messages = g.messages := by
  cases hri : i.requirement_id with
  | none => simp [updGroupIds, hri]
  | some r =>
    simp only [updGroupIds, hri]
    split_ifs <;> simp

theorem updGroupMsgs_fields (g : GroupAcc) (i : ValidationIssue) :
    (updGroupMsgs g i).count = g.count ∧ (updGroupMsgs g i).key_severity = g.key_severity ∧
    (updGroupMsgs g i).key_code = g.key_code := by
  unfold updGroupMsgs
  split_ifs <;> simp

theorem updGroup_count (g : GroupAcc) (i : ValidationIssue) :
    (updGroup g i).count = g.count + 1 := by
  unfold updGroup
  rw [(updGroupMsgs_fields _ _).1, (updGroupIds_fields _ _).1]

theorem updGroup_key (g : GroupAcc) (i : ValidationIssue) :
    (updGroup g i).key_severity = g.key_severity ∧ (updGroup g i).key_code = g.key_code := by
  unfold updGroup
  rw [(updGroupMsgs_fields _ _).2.1, (updGroupIds_fields _ _).2.1,
    (updGroupMsgs_fields _ _).2.2, (updGroupIds_fields _ _).2.2.1]
  exact ⟨rfl, rfl⟩

theorem updGroup_messages (g : GroupAcc) (i : ValidationIssue) :
    (updGroup g i).messages =
      if i.message ≠ "" ∧ g.messages.length < 3 then g.messages ++ [i.message]
      else g.messages := by
  unfold updGroup updGroupMsgs
  rw [(updGroupIds_fields { g with count := g.count + 1 } i).2.2.2]
  split
  · rfl
  · exact (updGroupIds_fields { g with count := g.count + 1 } i).2.2.2

theorem addIssue_count_sum (gs : List GroupAcc) (i : ValidationIssue) :
    ((addIssue gs i).map (fun g => g.count)).sum = ((gs.map (fun g => g.count)).sum) + 1 := by
  induction gs with
  | nil => simp [addIssue, updGroup_count]
  | cons g gs ih =>
    unfold addIssue
    split
    · simp only [List.map_cons, List.sum_cons, updGroup_count]
      omega
    · simp only [List.map_cons, List.sum_cons, ih]
      omega

theorem groupIssues_count_sum (issues : List ValidationIssue) :
    ((groupIssues issues).map (fun g => g.count)).sum = issues.length := by
  suffices h : ∀ gs : List GroupAcc,
      ((issues.foldl addIssue gs).map (fun g => g.count)).sum =
        ((gs.map (fun g => g.count)).sum) + issues.length by
    simpa using h []
  induction issues with
  | nil => intro gs; simp
  | cons i is ih =>
    intro gs
    simp only [List.foldl_cons, List.length_cons]
    rw [ih (addIssue gs i), addIssue_count_sum]
    omega

/-- C8: for every instance whose embedded validation was produced by
`validate_instance`, the per-group counts of the report's `by_code` table
sum to the validation's `issue_count`: each issue is counted in exactly one
`(severity, code)` group. -/
theorem report_by_code_counts_sum (reqs : List Req) :
    (((build_report (validate_instance reqs)).by_code.map (fun g => g.count)).sum =
      (validate_instance reqs).issue_count) := by
  have hperm : ((build_report (validate_instance reqs)).by_code.map (fun g => g.count)).Perm
      (((groupIssues (validate_instance reqs).issues).map (fun g =>
        ({ severity := g.key_severity, code := g.key_code, count := g.count,
           requirement_ids := sortStr g.requirement_ids,
           message_examples := g.messages } : CodeGroup))).map (fun g => g.count)) := by
    exact (sortLe_perm _ _).map _
  rw [hperm.sum_eq, List.map_map]
  have heq : ((groupIssues (validate_instance reqs).issues).map
      ((fun g : CodeGroup => g.count) ∘ (fun g : GroupAcc =>
        ({ severity := g.key_severity, code := g.key_code, count := g.count,
           requirement_ids := sortStr g.requirement_ids,
           message_examples := g.messages } : CodeGroup)))) =
      ((groupIssues (validate_instance reqs).issues).map (fun g => g.count)) := by
    simp [Function.comp]
  rw [heq, groupIssues_count_sum]
  rfl

/-- First group of the accumulator with the given `(severity, code)` key
(the dict lookup view of `grouped`). -/
def findGroup : List GroupAcc → String → String → Option GroupAcc
  | [], _, _ => none
  | g :: gs, sev, code =>
    if g.key_severity = sev ∧ g.key_code = code then some g else findGroup gs sev code

theorem findGroup_addIssue (gs : List GroupAcc) (i : ValidationIssue) (sev code : String) :
    findGroup (addIssue gs i) sev code =
      if i.severity = sev ∧ i.code = code then
        some (updGroup ((findGroup gs sev code).getD ⟨sev, code, 0, [], []⟩) i)
      else findGroup gs sev code := by
  induction gs with
  | nil =>
    simp only [addIssue, findGroup, (updGroup_key _ i).1, (updGroup_key _ i).2]
    by_cases hc : i.severity = sev ∧ i.code = code
    · rw [if_pos hc, if_pos hc]
      obtain ⟨h1, h2⟩ := hc
      subst h1
      subst h2
      rfl
    · rw [if_neg hc, if_neg hc]
  | cons g gs ih =>
    unfold addIssue
    by_cases hk : g.key_severity = i.severity ∧ g.key_code = i.code
    · rw [if_pos hk]
      unfold findGroup
      rw [(updGroup_key g i).1, (updGroup_key g i).2]
      by_cases ht : g.key_severity = sev ∧ g.key_code = code
      · have hc : i.severity = sev ∧ i.code = code := ⟨hk.1 ▸ ht.1, hk.2 ▸ ht.2⟩
        rw [if_pos ht, if_pos hc, if_pos ht]
        rfl
      · have hc : ¬ (i.severity = sev ∧ i.code = code) := by
          intro hc
          exact ht ⟨hk.1.trans hc.1, hk.2.trans hc.2⟩
        rw [if_neg ht, if_neg hc, if_neg ht]
    · rw [if_neg hk]
      unfold findGroup
      by_cases ht : g.key_severity = sev ∧ g.key_code = code
      · have hc : ¬ (i.severity = sev ∧ i.code = code) := by
          rintro ⟨h1, h2⟩
          exact hk ⟨ht.1.trans h1.symm, ht.2.trans h2.symm⟩
        rw [if_pos ht, if_neg hc, if_pos ht]
      · rw [if_neg ht, ih, if_neg ht]

theorem addIssue_keys (gs : List GroupAcc) (i : ValidationIssue) :
    ((addIssue gs i).map (fun g => (g.key_severity, g.key_code))) =
        gs.map (fun g => (g.key_severity, g.key_code)) ∨
      ((addIssue gs i).map (fun g => (g.key_severity, g.key_code))) =
        gs.map (fun g => (g.key_severity, g.key_code)) ++ [(i.severity, i.code)] := by
  induction gs with
  | nil =>
    right
    simp [addIssue, (updGroup_key _ i).1, (updGroup_key _ i).2]
  | cons g gs ih =>
    unfold addIssue
    split
    · left
      simp [(updGroup_key g i).1, (updGroup_key g i).2]
    · rcases ih with h | h
      · left
        simp [h]
      · right
        simp [h]

theorem addIssue_keys_nodup (gs : List GroupAcc) (i : ValidationIssue)
    (h : (gs.map (fun g => (g.key_severity, g.key_code))).Nodup) :
    ((addIssue gs i).map (fun g => (g.key_severity, g.key_code))).Nodup := by
  induction gs with
  | nil => simp [addIssue]
  | cons g gs ih =>
    unfold addIssue
    split
    · simpa [(updGroup_key g i).1, (updGroup_key g i).2] using h
    · next hk =>
      simp only [List.map_cons, List.nodup_cons] at h ⊢
      refine ⟨?_, ih h.2⟩
      intro hmem
      rcases addIssue_keys gs i with he | he
      · rw [he] at hmem
        exact h.1 hmem
      · rw [he] at hmem
        rcases List.mem_append.mp hmem with hm | hm
        · exact h.1 hm
        · have : (g.key_severity, g.key_code) = (i.severity, i.code) := by simpa using hm
          apply hk
          exact ⟨congrArg Prod.fst this, congrArg Prod.snd this⟩

theorem groupIssues_keys_nodup (issues : List ValidationIssue) :
    ((groupIssues issues).map (fun g => (g.key_severity, g.key_code))).Nodup := by
  suffices h : ∀ gs : List GroupAcc,
      (gs.map (fun g => (g.key_severity, g.key_code))).Nodup →
      ((issues.foldl addIssue gs).map (fun g => (g.key_severity, g.key_code))).Nodup by
    exact h [] (by simp)
  induction issues with
  | nil => intro gs h; exact h
  | cons i is ih =>
    intro gs h
    exact ih _ (addIssue_keys_nodup gs i h)

theorem findGroup_mem (gs : List GroupAcc)
    (hnd : (gs.map (fun g => (g.key_severity, g.key_code))).Nodup)
    (g : GroupAcc) (hg : g ∈ gs) :
    findGroup gs g.key_severity g.key_code = some g := by
  induction gs with
  | nil => cases hg
  | cons h t ih =>
    rcases List.mem_cons.mp hg with rfl | hgt
    · unfold findGroup
      rw [if_pos ⟨rfl, rfl⟩]
    · simp only [List.map_cons, List.nodup_cons] at hnd
      have hne : ¬ (h.key_severity = g.key_severity ∧ h.key_code = g.key_code) := by
        rintro ⟨h1, h2⟩
        exact hnd.1 (by
          rw [h1, h2]
          exact List.mem_map_of_mem _ hgt)
      unfold findGroup
      rw [if_neg hne]
      exact ih hnd.2 hgt

theorem findGroup_addIssue_preserved {gs : List GroupAcc} {sev code : String}
    {g0 : GroupAcc} (i : ValidationIssue)
    (h : findGroup gs sev code = some g0) :
    ∃ g1, findGroup (addIssue gs i) sev code = some g1 := by
  rw [findGroup_addIssue]
  split
  · exact ⟨_, rfl⟩
  · exact ⟨g0, h⟩

theorem groupIssues_key_present (issues : List ValidationIssue) (j : ValidationIssue)
    (hj : j ∈ issues) :
    ∃ g, findGroup (groupIssues issues) j.severity j.code = some g := by
  induction issues using List.reverseRecOn with
  | nil => cases hj
  | append_singleton is i ih =>
    have hfold : groupIssues (is ++ [i]) = addIssue (groupIssues is) i := by
      unfold groupIssues
      rw [List.foldl_append]
      rfl
    rw [hfold]
    rcases List.mem_append.mp hj with hm | hm
    · obtain ⟨g0, hg0⟩ := ih hm
      exact findGroup_addIssue_preserved i hg0
    · have : j = i := by simpa using hm
      subst this
      rw [findGroup_addIssue, if_pos ⟨rfl, rfl⟩]
      exact ⟨_, rfl⟩

theorem findGroup_none_no_issue (issues : List ValidationIssue) (sev code : String)
    (h : findGroup (groupIssues issues) sev code = none) :
    issues.filter (fun i => i.severity == sev && i.code == code) = [] := by
  rw [List.filter_eq_nil_iff]
  intro j hj hp
  simp only [Bool.and_eq_true, beq_iff_eq] at hp
  obtain ⟨g, hg⟩ := groupIssues_key_present issues j hj
  rw [hp.1, hp.2, h] at hg
  cases hg

theorem take3_filter_append (l : List String) (m : String) (ms : List String)
    (h : ms = (l.filter (fun x => x != "")).take 3) :
    (if m ≠ "" ∧ ms.length < 3 then ms ++ [m] else ms) =
      ((l ++ [m]).filter (fun x => x != "")).take 3 := by
  rw [List.filter_append]
  by_cases hm : m = ""
  · subst hm
    simp [h]
  · have hf : List.filter (fun x => x != "") [m] = [m] := by simp [hm]
    rw [hf]
    by_cases hlen : (l.filter (fun x => x != "")).length < 3
    · have hms : ms.length < 3 := by
        rw [h, List.length_take]
        omega
      rw [if_pos ⟨hm, hms⟩, h,
        List.take_of_length_le (le_of_lt hlen),
        List.take_of_length_le (by simp; omega)]
    · have hms : ¬ ms.length < 3 := by
        rw [h, List.length_take]
        omega
      rw [if_neg (fun hc => hms hc.2), h,
        List.take_append_of_le_length (by omega)]

theorem groupIssues_messages (issues : List ValidationIssue) (sev code : String)
    (g : GroupAcc) (hg : findGroup (groupIssues issues) sev code = some g) :
    g.messages =
      (((issues.filter (fun i => i.severity == sev && i.code == code)).map
        (fun i => i.message)).filter (fun m => m != "")).take 3 := by
  induction issues using List.reverseRecOn generalizing g with
  | nil => cases hg
  | append_singleton is i ih =>
    have hfold : groupIssues (is ++ [i]) = addIssue (groupIssues is) i := by
      unfold groupIssues
      rw [List.foldl_append]
      rfl
    rw [hfold, findGroup_addIssue] at hg
    by_cases hc : i.severity = sev ∧ i.code = code
    · rw [if_pos hc] at hg
      have hpi : (fun i => i.severity == sev && i.code == code) i = true := by
        simp [hc.1, hc.2]
      have hfilter : (is ++ [i]).filter (fun i => i.severity == sev && i.code == code) =
          is.filter (fun i => i.severity == sev && i.code == code) ++ [i] := by
        rw [List.filter_append]
        simp [hpi]
      cases hg
      rw [hfilter, List.map_append]
      cases hfind : findGroup (groupIssues is) sev code with
      | some gb =>
        simp only [Option.getD_some]
        rw [updGroup_messages, ih gb hfind]
        exact take3_filter_append _ _ _ rfl
      | none =>
        simp only [Option.getD_none]
        rw [updGroup_messages]
        have hnil := findGroup_none_no_issue is sev code hfind
        rw [hnil]
        simp only [List.nil_append, List.map_cons, List.map_nil]
        by_cases hmsg : i.message = ""
        · simp [hmsg]
        · simp [hmsg]
    · rw [if_neg hc] at hg
      have hpi : (fun i => i.severity == sev && i.code == code) i = false := by
        by_cases h1 : i.severity = sev
        · have h2 : i.code ≠ code := fun h2 => hc ⟨h1, h2⟩
          simp [h1, h2]
        · simp [h1]
      have hfilter : (is ++ [i]).filter (fun i => i.severity == sev && i.code == code) =
          is.filter (fun i => i.severity == sev && i.code == code) := by
        rw [List.filter_append]
        simp [hpi]
      rw [hfilter]
      exact ih g hg

/-- Counterexample to C9 as stated: two requirements both missing their
verification method produce two issues with an identical message in the
same `(severity, code)` group, and `build_report` records the message twice
— it does not skip a message identical to one already recorded. -/
theorem message_examples_duplicates_counterexample :
    ((build_report (validate_instance
        [⟨some "A", "The valve shall close.", "functional", ⟨[], "ok"⟩, []⟩,
         ⟨some "B", "The valve shall close.", "functional", ⟨[], "ok"⟩, []⟩])).by_code.map
      (fun g => g.message_examples)) =
      [["Verification.method must be a non-empty list.",
        "Verification.method must be a non-empty list."]] ∧
    ¬ (∀ g ∈ (build_report (validate_instance
        [⟨some "A", "The valve shall close.", "functional", ⟨[], "ok"⟩, []⟩,
         ⟨some "B", "The valve shall close.", "functional", ⟨[], "ok"⟩, []⟩])).by_code,
      g.message_examples.Nodup) := by
  constructor
  · decide
  · decide

/-- C9 amended: each `(severity, code)` group of the report records at most
three example messages, namely the first up to three non-empty messages of
the group's issues in issue-list order — duplicated messages are retained
(only empty messages are skipped), rather than deduplicated. -/
theorem message_examples_first_three (v : ValidationResult) (g : CodeGroup)
    (hg : g ∈ (build_report v).by_code) :
    g.message_examples.length ≤ 3 ∧
    g.message_examples =
      (((v.issues.filter (fun i => i.severity == g.severity && i.code == g.code)).map
        (fun i => i.message)).filter (fun m => m != "")).take 3 := by
  have hmem : g ∈ (groupIssues v.issues).map (fun ga =>
      ({ severity := ga.key_severity, code := ga.key_code, count := ga.count,
         requirement_ids := sortStr ga.requirement_ids,
         message_examples := ga.messages } : CodeGroup)) := by
    have hperm := sortLe_perm groupLeB ((groupIssues v.issues).map (fun ga =>
      ({ severity := ga.key_severity, code := ga.key_code, count := ga.count,
         requirement_ids := sortStr ga.requirement_ids,
         message_examples := ga.messages } : CodeGroup)))
    exact hperm.mem_iff.mp hg
  obtain ⟨ga, hga, rfl⟩ := List.mem_map.mp hmem
  have hfind : findGroup (groupIssues v.issues) ga.key_severity ga.key_code = some ga :=
    findGroup_mem _ (groupIssues_keys_nodup v.issues) ga hga
  have hmsg := groupIssues_messages v.issues ga.key_severity ga.key_code ga hfind
  constructor
  · show ga.messages.length ≤ 3
    rw [hmsg, List.length_take]
    omega
  · exact hmsg

/-- Witness for the amended C9 at the single-requirement instance whose
issues are one missing-method error. -/
theorem message_examples_first_three_witness :
    (({ severity := "error", code := "REQ_VERIFICATION_METHOD_MISSING", count := 1,
        requirement_ids := ["A"],
        message_examples := ["Verification.method must be a non-empty list."] } :
        CodeGroup).message_examples.length ≤ 3) ∧
    ({ severity := "error", code := "REQ_VERIFICATION_METHOD_MISSING", count := 1,
        requirement_ids := ["A"],
        message_examples := ["Verification.method must be a non-empty list."] } :
        CodeGroup).message_examples =
      ((((validate_instance
          [⟨some "A", "The valve shall close.", "functional", ⟨[], "ok"⟩, []⟩]).issues.filter
            (fun i => i.severity == "error" && i.code == "REQ_VERIFICATION_METHOD_MISSING")).map
        (fun i => i.message)).filter (fun m => m != "")).take 3 :=
  message_examples_first_three
    (validate_instance [⟨some "A", "The valve shall close.", "functional", ⟨[], "ok"⟩, []⟩])
    ({ severity := "error", code := "REQ_VERIFICATION_METHOD_MISSING", count := 1,
       requirement_ids := ["A"],
       message_examples := ["Verification.method must be a non-empty list."] } : CodeGroup)
    (by decide)

end ReqAgent
